import Mathlib

/-!
# Verification of the image-feature repository (`src/model.rs`)

A shallow embedding of the Rust data-access layer in `model.rs`:

* the bincode serialization applied to `Vec<KeyPointData>` and `Vec<u8>`
  before storage (bincode 1.x default: fixed-width little-endian integers,
  a `u64` little-endian length prefix followed by the elements; an `f32`
  is stored as the 4 little-endian bytes of its bit pattern);
* the SQLite-backed repository operations `setup_database`,
  `image_description_table`, `insert_image_feature`, `delete_image_feature`,
  `reset_image_feature` and `get_image_feature`, modelled as pure functions
  over an explicit database state.

`f32`/`f64` fields are modelled by their bit patterns (natural numbers below
`2^32` resp. `2^64`): the code never performs arithmetic on them, it only
moves their bytes, so the bit-pattern view is exact.  Each operation takes a
`conn_ok : Bool` modelling whether its own `Connection::open` call succeeds
(every operation opens a fresh connection).  A table that has not been
created yet is `none`; SQL statements against a missing table fail.
-/

namespace VyuweRust

/-- Mirror of the Rust `KeyPointData` struct: four `f32` fields, each
modelled by its 32-bit pattern. -/
structure KeyPointData where
  x : Nat
  y : Nat
  size : Nat
  angle : Nat
deriving DecidableEq, Repr

/-- Mirror of the Rust `ImageFeature` struct (the in-memory record). -/
structure ImageFeature where
  id : String
  keypoints : List KeyPointData
  descriptors : List Nat
  motion_mean : Nat
  motion_std : Nat
  created_at_utc : String
  img_filename : Option String
  camera_id : String
deriving DecidableEq, Repr

/-- Mirror of the Rust `ImageDescription` struct. -/
structure ImageDescription where
  image_name : String
  datetime : String
  camera_id : String
  anomaly : Option String
deriving DecidableEq, Repr

/-! ## The binary codec (bincode fixed-int, little endian) -/

/-- Little-endian encoding of `n` into `w` bytes (bincode fixed-int). -/
def encodeLE : Nat → Nat → List Nat
  | 0, _ => []
  | w + 1, n => n % 256 :: encodeLE w (n / 256)

/-- Little-endian reassembly of a byte list into a natural number. -/
def decodeLE : List Nat → Nat
  | [] => 0
  | b :: bs => b + 256 * decodeLE bs

/-- bincode serialization of one `KeyPointData`: the four `f32` bit
patterns, 4 little-endian bytes each. -/
def encodeKeyPoint (k : KeyPointData) : List Nat :=
  encodeLE 4 k.x ++ encodeLE 4 k.y ++ encodeLE 4 k.size ++ encodeLE 4 k.angle

/-- `bincode::serialize` of a `Vec<KeyPointData>`: `u64` little-endian
length prefix followed by the serialized elements. -/
def serializeKeypoints (ks : List KeyPointData) : List Nat :=
  encodeLE 8 ks.length ++ ks.flatMap encodeKeyPoint

/-- `bincode::serialize` of a `Vec<u8>`: `u64` little-endian length prefix
followed by the raw bytes. -/
def serializeBytes (bs : List Nat) : List Nat :=
  encodeLE 8 bs.length ++ bs

/-- Read `count` serialized keypoints from the front of the byte list
(16 bytes each); fails if the input is too short.  Trailing bytes are
left untouched, as with `bincode::deserialize`. -/
def readKeypoints : Nat → List Nat → Option (List KeyPointData)
  | 0, _ => some []
  | count + 1,
      b0 :: b1 :: b2 :: b3 :: b4 :: b5 :: b6 :: b7 ::
      b8 :: b9 :: b10 :: b11 :: b12 :: b13 :: b14 :: b15 :: bs =>
    (readKeypoints count bs).map
      ({ x := decodeLE [b0, b1, b2, b3]
         y := decodeLE [b4, b5, b6, b7]
         size := decodeLE [b8, b9, b10, b11]
         angle := decodeLE [b12, b13, b14, b15] } :: ·)
  | _ + 1, _ => none

/-- `bincode::deserialize::<Vec<KeyPointData>>`: read the `u64` length
prefix, then that many keypoints; fail (`DecodeError`) on truncated
input. -/
def deserializeKeypoints (blob : List Nat) : Option (List KeyPointData) :=
  if blob.length < 8 then none
  else readKeypoints (decodeLE (blob.take 8)) (blob.drop 8)

/-- `bincode::deserialize::<Vec<u8>>`: read the `u64` length prefix, then
that many raw bytes; fail on truncated input. -/
def deserializeBytes (blob : List Nat) : Option (List Nat) :=
  if blob.length < 8 then none
  else
    let n := decodeLE (blob.take 8)
    let rest := blob.drop 8
    if rest.length < n then none else some (rest.take n)

/-! ### Codec lemmas -/

theorem encodeLE_length (w n : Nat) : (encodeLE w n).length = w := by
  induction w generalizing n with
  | zero => rfl
  | succ w ih => simp [encodeLE, ih]

theorem decodeLE_encodeLE (w n : Nat) :
    decodeLE (encodeLE w n) = n % 256 ^ w := by
  induction w generalizing n with
  | zero => simp [encodeLE, decodeLE, Nat.mod_one]
  | succ w ih =>
    have h256 : (256 : Nat) ^ (w + 1) = 256 * 256 ^ w := by ring
    rw [encodeLE, decodeLE, ih, h256, Nat.mod_mul]

theorem decodeLE_encodeLE_of_lt (w n : Nat) (h : n < 256 ^ w) :
    decodeLE (encodeLE w n) = n := by
  rw [decodeLE_encodeLE, Nat.mod_eq_of_lt h]

theorem take_append_of_length (l₁ l₂ : List Nat) :
    (l₁ ++ l₂).take l₁.length = l₁ := by
  simp

theorem drop_append_of_length (l₁ l₂ : List Nat) :
    (l₁ ++ l₂).drop l₁.length = l₂ := by
  simp

theorem encodeKeyPoint_length (k : KeyPointData) :
    (encodeKeyPoint k).length = 16 := by
  simp [encodeKeyPoint, encodeLE_length]

/-- Predicate: the keypoint's fields are genuine `f32` bit patterns. -/
def KPwf (k : KeyPointData) : Prop :=
  k.x < 2 ^ 32 ∧ k.y < 2 ^ 32 ∧ k.size < 2 ^ 32 ∧ k.angle < 2 ^ 32

instance (k : KeyPointData) : Decidable (KPwf k) := by
  unfold KPwf; infer_instance

theorem decodeLE4 (n : Nat) (h : n < 2 ^ 32) :
    decodeLE [n % 256, n / 256 % 256, n / 256 / 256 % 256, n / 256 / 256 / 256 % 256]
      = n := by
  simp only [decodeLE]
  omega

theorem encodeLE4_eq (n : Nat) : encodeLE 4 n =
    [n % 256, n / 256 % 256, n / 256 / 256 % 256, n / 256 / 256 / 256 % 256] := rfl

theorem readKeypoints_flatMap (ks : List KeyPointData) (rest : List Nat)
    (hwf : ∀ k ∈ ks, KPwf k) :
    readKeypoints ks.length (ks.flatMap encodeKeyPoint ++ rest) = some ks := by
  induction ks with
  | nil => simp [readKeypoints]
  | cons k ks ih =>
    obtain ⟨hx, hy, hs, ha⟩ := hwf k (List.mem_cons_self k ks)
    simp only [List.flatMap_cons, encodeKeyPoint, encodeLE4_eq, List.length_cons,
      List.cons_append, List.nil_append, List.append_assoc]
    simp only [readKeypoints]
    rw [ih (fun k hk => hwf k (List.mem_cons_of_mem _ hk))]
    simp only [Option.map_some']
    rw [decodeLE4 k.x hx, decodeLE4 k.y hy, decodeLE4 k.size hs, decodeLE4 k.angle ha]

theorem deserialize_serialize_keypoints (ks : List KeyPointData)
    (hwf : ∀ k ∈ ks, KPwf k) (hlen : ks.length < 2 ^ 64) :
    deserializeKeypoints (serializeKeypoints ks) = some ks := by
  have h8 : (encodeLE 8 ks.length).length = 8 := encodeLE_length 8 ks.length
  have h264 : (2 : Nat) ^ 64 = 256 ^ 8 := by norm_num
  rw [h264] at hlen
  unfold serializeKeypoints deserializeKeypoints
  have htake := take_append_of_length (encodeLE 8 ks.length) (ks.flatMap encodeKeyPoint)
  have hdrop := drop_append_of_length (encodeLE 8 ks.length) (ks.flatMap encodeKeyPoint)
  rw [h8] at htake hdrop
  rw [if_neg (by simp only [List.length_append, h8]; omega)]
  rw [htake, hdrop, decodeLE_encodeLE_of_lt 8 ks.length hlen]
  have := readKeypoints_flatMap ks [] hwf
  simpa using this

theorem deserialize_serialize_bytes (bs : List Nat) (hlen : bs.length < 2 ^ 64) :
    deserializeBytes (serializeBytes bs) = some bs := by
  have h8 : (encodeLE 8 bs.length).length = 8 := encodeLE_length 8 bs.length
  have h264 : (2 : Nat) ^ 64 = 256 ^ 8 := by norm_num
  rw [h264] at hlen
  unfold serializeBytes deserializeBytes
  have htake := take_append_of_length (encodeLE 8 bs.length) bs
  have hdrop := drop_append_of_length (encodeLE 8 bs.length) bs
  rw [h8] at htake hdrop
  rw [if_neg (by simp only [List.length_append, h8]; omega)]
  rw [htake, hdrop, decodeLE_encodeLE_of_lt 8 bs.length hlen]
  simp

/-! ## The database model -/

/-- One stored row of the `image_features` table: the two BLOB columns hold
the bincode-serialized byte sequences, the two REAL columns hold `f64` bit
patterns. -/
structure FeatureRow where
  id : String
  keypoints : List Nat
  descriptors : List Nat
  motion_mean : Nat
  motion_std : Nat
  created_at_utc : String
  img_filename : Option String
  camera_id : String
deriving DecidableEq, Repr

/-- The state of one SQLite database file.  A table is `none` until its
`CREATE TABLE` has run; row order is the order the store yields rows
(insertion order). -/
structure DB where
  image_features : Option (List FeatureRow)
  image_description : Option (List ImageDescription)
deriving DecidableEq, Repr

/-- The error kinds the repository can surface. -/
inductive DBError where
  | storageUnavailable
  | noSuchTable
  | uniqueViolation
  | decodeError
deriving DecidableEq, Repr

instance {ε α : Type} [DecidableEq ε] [DecidableEq α] :
    DecidableEq (Except ε α) := fun a b =>
  match a, b with
  | .ok x, .ok y =>
    if h : x = y then isTrue (by rw [h]) else isFalse (by intro hc; cases hc; exact h rfl)
  | .error x, .error y =>
    if h : x = y then isTrue (by rw [h]) else isFalse (by intro hc; cases hc; exact h rfl)
  | .ok _, .error _ => isFalse (by intro hc; cases hc)
  | .error _, .ok _ => isFalse (by intro hc; cases hc)

/-- The row written by `insert_image_feature`: both sequence fields pass
through `bincode::serialize` before the SQL write. -/
def encodeRow (f : ImageFeature) : FeatureRow :=
  { id := f.id
    keypoints := serializeKeypoints f.keypoints
    descriptors := serializeBytes f.descriptors
    motion_mean := f.motion_mean
    motion_std := f.motion_std
    created_at_utc := f.created_at_utc
    img_filename := f.img_filename
    camera_id := f.camera_id }

/-- `setup_database`: open a connection, `CREATE TABLE IF NOT EXISTS
image_features`.  `conn_ok` models whether `Connection::open` succeeds. -/
def setup_database (conn_ok : Bool) (s : DB) : Except DBError Unit × DB :=
  if conn_ok then
    match s.image_features with
    | some _ => (.ok (), s)
    | none => (.ok (), { s with image_features := some [] })
  else (.error .storageUnavailable, s)

/-- `image_description_table`: open a connection, `CREATE TABLE IF NOT
EXISTS image_description`. -/
def image_description_table (conn_ok : Bool) (s : DB) : Except DBError Unit × DB :=
  if conn_ok then
    match s.image_description with
    | some _ => (.ok (), s)
    | none => (.ok (), { s with image_description := some [] })
  else (.error .storageUnavailable, s)

/-- `insert_image_feature`: open a connection, serialize the two sequence
fields, then `INSERT`.  The TEXT PRIMARY KEY on `id` makes a duplicate id a
unique-constraint violation; a failed statement writes nothing. -/
def insert_image_feature (conn_ok : Bool) (f : ImageFeature) (s : DB) :
    Except DBError Unit × DB :=
  if conn_ok then
    match s.image_features with
    | none => (.error .noSuchTable, s)
    | some t =>
      if t.any (fun r => r.id == f.id) then (.error .uniqueViolation, s)
      else (.ok (), { s with image_features := some (t ++ [encodeRow f]) })
  else (.error .storageUnavailable, s)

/-- `delete_image_feature`: open a connection, `DELETE FROM image_features
WHERE camera_id = ?` — removes every matching row. -/
def delete_image_feature (conn_ok : Bool) (camera_id : String) (s : DB) :
    Except DBError Unit × DB :=
  if conn_ok then
    match s.image_features with
    | none => (.error .noSuchTable, s)
    | some t =>
      (.ok (), { s with image_features := some (t.filter (fun r => !(r.camera_id == camera_id))) })
  else (.error .storageUnavailable, s)

/-- `reset_image_feature`: `delete_image_feature` then `insert_image_feature`,
each on its own connection, with no surrounding transaction; the `?`
operator short-circuits on a delete error. -/
def reset_image_feature (conn_ok₁ conn_ok₂ : Bool) (camera_id : String)
    (f : ImageFeature) (s : DB) : Except DBError Unit × DB :=
  match delete_image_feature conn_ok₁ camera_id s with
  | (.ok _, s') => insert_image_feature conn_ok₂ f s'
  | (.error e, s') => (.error e, s')

/-- Decode one fetched row back into an `ImageFeature`, as the body of
`get_image_feature` does: `bincode::deserialize` on the two BLOB columns,
propagating a decode failure with `?`. -/
def decodeRow (r : FeatureRow) : Except DBError (Option ImageFeature) :=
  match deserializeKeypoints r.keypoints with
  | none => .error .decodeError
  | some ks =>
    match deserializeBytes r.descriptors with
    | none => .error .decodeError
    | some ds =>
      .ok (some { id := r.id, keypoints := ks, descriptors := ds,
                  motion_mean := r.motion_mean, motion_std := r.motion_std,
                  created_at_utc := r.created_at_utc,
                  img_filename := r.img_filename, camera_id := r.camera_id })

/-- The first row of `SELECT * FROM image_features WHERE camera_id = ?`,
decoded; `Ok(None)` when no row matches. -/
def getFirst (camera_id : String) : List FeatureRow → Except DBError (Option ImageFeature)
  | [] => .ok none
  | r :: rs =>
    if r.camera_id == camera_id then decodeRow r else getFirst camera_id rs

/-- `get_image_feature`: open a connection, query by `camera_id`, decode
the first matching row if any.  Read-only: the state is unchanged. -/
def get_image_feature (conn_ok : Bool) (camera_id : String) (s : DB) :
    Except DBError (Option ImageFeature) :=
  if conn_ok then
    match s.image_features with
    | none => .error .noSuchTable
    | some t => getFirst camera_id t
  else .error .storageUnavailable

/-! ## Repository lemmas -/

theorem getFirst_eq_find? (cam : String) (t : List FeatureRow) :
    getFirst cam t = match t.find? (fun r => r.camera_id == cam) with
      | none => .ok none
      | some r => decodeRow r := by
  induction t with
  | nil => simp [getFirst, List.find?]
  | cons r rs ih =>
    cases hb : r.camera_id == cam with
    | true => simp [getFirst, List.find?, hb]
    | false => simp [getFirst, List.find?, hb, ih]

theorem getFirst_of_no_match (cam : String) (t : List FeatureRow)
    (h : ∀ r ∈ t, r.camera_id ≠ cam) : getFirst cam t = .ok none := by
  rw [getFirst_eq_find?]
  have : t.find? (fun r => r.camera_id == cam) = none := by
    rw [List.find?_eq_none]
    intro r hr
    simpa using h r hr
  rw [this]

theorem delete_error_state (conn_ok : Bool) (cam : String) (s : DB) (e : DBError)
    (s₁ : DB) (h : delete_image_feature conn_ok cam s = (.error e, s₁)) : s₁ = s := by
  unfold delete_image_feature at h
  cases conn_ok with
  | false => simpa using (congrArg Prod.snd h).symm
  | true =>
    cases hf : s.image_features with
    | none => rw [hf] at h; simpa using (congrArg Prod.snd h).symm
    | some t => rw [hf] at h; simp at h

end VyuweRust

namespace VyuweRust

/-! ## The claims -/

/-- C1: for every sequence of keypoints (including the empty sequence,
with `f32` bit-pattern fields and a `usize` length) and every byte
sequence, decoding the encoded blob returns the original value:
`decode (encode x) = x`, where encode is the serialization applied by
`insert_image_feature` and decode the deserialization applied by
`get_image_feature`. -/
theorem C1_codec_roundtrip (ks : List KeyPointData) (bs : List Nat)
    (hwf : ∀ k ∈ ks, KPwf k) (hkl : ks.length < 2 ^ 64) (hbl : bs.length < 2 ^ 64) :
    deserializeKeypoints (serializeKeypoints ks) = some ks ∧
    deserializeBytes (serializeBytes bs) = some bs :=
  ⟨deserialize_serialize_keypoints ks hwf hkl, deserialize_serialize_bytes bs hbl⟩

theorem C1_codec_roundtrip_witness :
    (∀ k ∈ [({ x := 0, y := 0, size := 1065353216, angle := 0 } : KeyPointData)], KPwf k) ∧
    deserializeKeypoints (serializeKeypoints
      [{ x := 0, y := 0, size := 1065353216, angle := 0 }]) =
      some [{ x := 0, y := 0, size := 1065353216, angle := 0 }] ∧
    deserializeBytes (serializeBytes [0, 1, 255]) = some [0, 1, 255] :=
  ⟨by decide,
   (C1_codec_roundtrip _ [0, 1, 255] (by decide) (by decide) (by decide)).1,
   (C1_codec_roundtrip [] _ (by decide) (by decide) (by decide)).2⟩

/-- The concrete feature record of the spec's end-to-end scenario, floats
given by their IEEE-754 bit patterns (1.0f32 ↦ 1065353216, 2.0f32 ↦
1073741824, 45.0f32 ↦ 1110704128, 0.5f64 ↦ 4602678819172646912,
0.1f64 ↦ 4591870180066957722). -/
def specFeature : ImageFeature :=
  { id := "1"
    keypoints := [{ x := 0, y := 0, size := 1065353216, angle := 0 },
                  { x := 1065353216, y := 1065353216, size := 1073741824, angle := 1110704128 }]
    descriptors := [0, 1, 2, 3, 4, 5, 6, 7, 8, 9]
    motion_mean := 4602678819172646912
    motion_std := 4591870180066957722
    created_at_utc := "2024-06-12T12:34:56Z"
    img_filename := some "image_1.jpg"
    camera_id := "camera_1" }

/-- C2: inserting a feature record into an empty table succeeds, and
fetching by its `camera_id` with `get_image_feature` returns `Some` of a
record equal to the inserted one in every field. -/
theorem C2_insert_then_get (f : ImageFeature) (d : Option (List ImageDescription))
    (hwf : ∀ k ∈ f.keypoints, KPwf k)
    (hkl : f.keypoints.length < 2 ^ 64) (hdl : f.descriptors.length < 2 ^ 64) :
    insert_image_feature true f ⟨some [], d⟩ = (.ok (), ⟨some [encodeRow f], d⟩) ∧
    get_image_feature true f.camera_id ⟨some [encodeRow f], d⟩ = .ok (some f) := by
  have h1 := deserialize_serialize_keypoints f.keypoints hwf hkl
  have h2 := deserialize_serialize_bytes f.descriptors hdl
  constructor
  · simp [insert_image_feature]
  · simp [get_image_feature, getFirst, encodeRow, decodeRow, h1, h2]

theorem C2_insert_then_get_witness :
    (∀ k ∈ specFeature.keypoints, KPwf k) ∧
    insert_image_feature true specFeature ⟨some [], some []⟩ =
      (.ok (), ⟨some [encodeRow specFeature], some []⟩) ∧
    get_image_feature true "camera_1" ⟨some [encodeRow specFeature], some []⟩ =
      .ok (some specFeature) :=
  ⟨by decide,
   (C2_insert_then_get specFeature (some []) (by decide) (by decide) (by decide)).1,
   (C2_insert_then_get specFeature (some []) (by decide) (by decide) (by decide)).2⟩

/-- C3: inserting a record whose `id` equals the `id` of a row already in
the table fails with a unique-constraint violation, the table state is
unchanged, and every subsequent fetch behaves exactly as before the failed
insert. -/
theorem C3_duplicate_id (f : ImageFeature) (t : List FeatureRow)
    (d : Option (List ImageDescription)) (r : FeatureRow)
    (hr : r ∈ t) (hid : r.id = f.id) :
    insert_image_feature true f ⟨some t, d⟩ = (.error .uniqueViolation, ⟨some t, d⟩) ∧
    ∀ cam, get_image_feature true cam (insert_image_feature true f ⟨some t, d⟩).2 =
      get_image_feature true cam ⟨some t, d⟩ := by
  have hany : t.any (fun r' => r'.id == f.id) = true :=
    List.any_eq_true.mpr ⟨r, hr, by simp [hid]⟩
  have h1 : insert_image_feature true f ⟨some t, d⟩ =
      (.error .uniqueViolation, ⟨some t, d⟩) := by
    simp [insert_image_feature, hany]
  exact ⟨h1, fun cam => by rw [h1]⟩

theorem C3_duplicate_id_witness :
    insert_image_feature true specFeature ⟨some [encodeRow specFeature], some []⟩ =
      (.error .uniqueViolation, ⟨some [encodeRow specFeature], some []⟩) ∧
    get_image_feature true "camera_1"
        (insert_image_feature true specFeature ⟨some [encodeRow specFeature], some []⟩).2 =
      get_image_feature true "camera_1" ⟨some [encodeRow specFeature], some []⟩ :=
  ⟨(C3_duplicate_id specFeature [encodeRow specFeature] (some [])
      (encodeRow specFeature) (by decide) rfl).1,
   (C3_duplicate_id specFeature [encodeRow specFeature] (some [])
      (encodeRow specFeature) (by decide) rfl).2 "camera_1"⟩

/-- C4: `delete_image_feature` succeeds for every table state (also when
zero rows match), removes every row whose `camera_id` matches, leaves no
matching row behind, and a subsequent `get_image_feature` for that
`camera_id` returns `Ok(None)`. -/
theorem C4_delete_all (cam : String) (t : List FeatureRow)
    (d : Option (List ImageDescription)) :
    (delete_image_feature true cam ⟨some t, d⟩).1 = .ok () ∧
    (∃ t', (delete_image_feature true cam ⟨some t, d⟩).2.image_features = some t' ∧
      ∀ r ∈ t', r.camera_id ≠ cam) ∧
    get_image_feature true cam (delete_image_feature true cam ⟨some t, d⟩).2 = .ok none := by
  have hmem : ∀ r ∈ t.filter (fun r => !(r.camera_id == cam)), r.camera_id ≠ cam := by
    intro r hr
    have := List.of_mem_filter hr
    simpa using this
  refine ⟨by simp [delete_image_feature], ⟨_, by simp [delete_image_feature], hmem⟩, ?_⟩
  simp only [delete_image_feature, if_pos]
  exact getFirst_of_no_match cam _ hmem

theorem C4_delete_all_witness :
    get_image_feature true "camera_1"
      (delete_image_feature true "camera_1" ⟨some [encodeRow specFeature], some []⟩).2 =
      .ok none :=
  (C4_delete_all "camera_1" [encodeRow specFeature] (some [])).2.2

/-- A replacement record for the same camera as `specFeature` but a fresh
primary key. -/
def specFeature2 : ImageFeature :=
  { specFeature with id := "2", motion_mean := 0, motion_std := 0 }

/-- A stored row for a different camera whose primary key happens to be
`"2"`. -/
def otherCameraRow : FeatureRow :=
  { id := "2"
    keypoints := serializeKeypoints []
    descriptors := serializeBytes []
    motion_mean := 0
    motion_std := 0
    created_at_utc := "2024-01-01T00:00:00Z"
    img_filename := none
    camera_id := "other_camera" }

/-- Against C5 as universally stated: if the replacement record's `id`
collides with a row of a different camera (which the delete step leaves in
place), the insert step fails with a unique violation after the delete has
already removed the camera's rows, leaving zero rows for that camera, not
one. -/
theorem C5_replace_counterexample :
    (reset_image_feature true true "camera_1" specFeature2
        ⟨some [otherCameraRow, encodeRow specFeature], some []⟩).1 =
      .error .uniqueViolation ∧
    (reset_image_feature true true "camera_1" specFeature2
        ⟨some [otherCameraRow, encodeRow specFeature], some []⟩).2.image_features =
      some [otherCameraRow] ∧
    [otherCameraRow].filter (fun r => r.camera_id == "camera_1") = [] := by
  decide

/-- C5: for a table holding rows for a camera, replacing via
`reset_image_feature` (with a fresh id for the new record) succeeds and
leaves exactly one row for that camera — the new record — and zero old
rows; and the replace is a `delete_image_feature` followed by an
`insert_image_feature` on its own connection, with no surrounding
transaction. -/
theorem C5_replace (cam : String) (f : ImageFeature) (t : List FeatureRow)
    (d : Option (List ImageDescription))
    (hcam : f.camera_id = cam)
    (hid : ∀ r ∈ t, r.camera_id ≠ cam → r.id ≠ f.id) :
    (reset_image_feature true true cam f ⟨some t, d⟩).1 = .ok () ∧
    (∃ t', (reset_image_feature true true cam f ⟨some t, d⟩).2.image_features = some t' ∧
      t'.filter (fun r => r.camera_id == cam) = [encodeRow f]) ∧
    (∀ (c₁ c₂ : Bool) (s : DB), (delete_image_feature c₁ cam s).1 = .ok () →
      reset_image_feature c₁ c₂ cam f s =
        insert_image_feature c₂ f (delete_image_feature c₁ cam s).2) := by
  have hfilter : ∀ r ∈ t.filter (fun r => !(r.camera_id == cam)), r.camera_id ≠ cam := by
    intro r hr
    simpa using List.of_mem_filter hr
  have hany : (t.filter (fun r => !(r.camera_id == cam))).any
      (fun r => r.id == f.id) = false := by
    rw [List.any_eq_false]
    intro r hr
    have hne := hid r (List.mem_of_mem_filter hr) (hfilter r hr)
    simpa using hne
  have hreset : reset_image_feature true true cam f ⟨some t, d⟩ =
      (.ok (), ⟨some (t.filter (fun r => !(r.camera_id == cam)) ++ [encodeRow f]), d⟩) := by
    simp [reset_image_feature, delete_image_feature, insert_image_feature, hany]
  refine ⟨by rw [hreset], ⟨_, by rw [hreset], ?_⟩, ?_⟩
  · rw [List.filter_append]
    have h₁ : (t.filter (fun r => !(r.camera_id == cam))).filter
        (fun r => r.camera_id == cam) = [] := by
      rw [List.filter_eq_nil_iff]
      intro r hr
      simpa using hfilter r hr
    have h₂ : [encodeRow f].filter (fun r => r.camera_id == cam) = [encodeRow f] := by
      simp [encodeRow, hcam]
    rw [h₁, h₂, List.nil_append]
  · intro c₁ c₂ s h
    unfold reset_image_feature
    rcases hdel : delete_image_feature c₁ cam s with ⟨e, s₂⟩
    rw [hdel] at h
    cases e with
    | error e => simp at h
    | ok u => cases u; rfl

theorem C5_replace_witness :
    ∃ t', (reset_image_feature true true "camera_1" specFeature2
        ⟨some [encodeRow specFeature], some []⟩).2.image_features = some t' ∧
      t'.filter (fun r => r.camera_id == "camera_1") = [encodeRow specFeature2] :=
  (C5_replace "camera_1" specFeature2 [encodeRow specFeature] (some [])
    rfl (by decide)).2.1

/-- C6: `get_image_feature` returns `Ok(None)` — a success, not an error —
when no row matches the camera id, and otherwise returns the decoding of
the first matching row in the order the store yields rows. -/
theorem C6_get_first_match (cam : String) (t : List FeatureRow)
    (d : Option (List ImageDescription)) :
    (t.find? (fun r => r.camera_id == cam) = none →
      get_image_feature true cam ⟨some t, d⟩ = .ok none) ∧
    (∀ r, t.find? (fun r => r.camera_id == cam) = some r →
      get_image_feature true cam ⟨some t, d⟩ = decodeRow r) := by
  have hg : get_image_feature true cam ⟨some t, d⟩ = getFirst cam t := by
    simp [get_image_feature]
  rw [getFirst_eq_find?] at hg
  constructor
  · intro h; rw [hg, h]
  · intro r h; rw [hg, h]

theorem C6_get_first_match_witness :
    get_image_feature true "camera_9" ⟨some [encodeRow specFeature], some []⟩ = .ok none ∧
    get_image_feature true "camera_1"
        ⟨some [encodeRow specFeature, encodeRow specFeature2], some []⟩ =
      decodeRow (encodeRow specFeature) :=
  ⟨(C6_get_first_match "camera_9" [encodeRow specFeature] (some [])).1 (by decide),
   (C6_get_first_match "camera_1" [encodeRow specFeature, encodeRow specFeature2]
      (some [])).2 (encodeRow specFeature) (by decide)⟩

/-- C7: the schema-creation operations are idempotent no-ops once the
table exists: calling them again returns no error, leaves the state (and
hence all data) unchanged, and calling either twice in a row makes the
second call a no-op. -/
theorem C7_schema_idempotent (s : DB) :
    (∀ t, s.image_features = some t → setup_database true s = (.ok (), s)) ∧
    (∀ td, s.image_description = some td → image_description_table true s = (.ok (), s)) ∧
    setup_database true (setup_database true s).2 = (.ok (), (setup_database true s).2) ∧
    image_description_table true (image_description_table true s).2 =
      (.ok (), (image_description_table true s).2) := by
  refine ⟨?_, ?_, ?_, ?_⟩
  · intro t h; simp [setup_database, h]
  · intro td h; simp [image_description_table, h]
  · cases hf : s.image_features with
    | some t => simp [setup_database, hf]
    | none => simp [setup_database, hf]
  · cases hd : s.image_description with
    | some td => simp [image_description_table, hd]
    | none => simp [image_description_table, hd]

theorem C7_schema_idempotent_witness :
    setup_database true (⟨some [encodeRow specFeature], some []⟩ : DB) =
      (.ok (), ⟨some [encodeRow specFeature], some []⟩) ∧
    setup_database true (setup_database true (⟨none, none⟩ : DB)).2 =
      (.ok (), (setup_database true (⟨none, none⟩ : DB)).2) :=
  ⟨(C7_schema_idempotent ⟨some [encodeRow specFeature], some []⟩).1
      [encodeRow specFeature] rfl,
   (C7_schema_idempotent ⟨none, none⟩).2.2.1⟩

/-- A stored row whose BLOB columns cannot be deserialized (shorter than
the 8-byte length prefix). -/
def corruptRow : FeatureRow :=
  { id := "bad"
    keypoints := []
    descriptors := []
    motion_mean := 0
    motion_std := 0
    created_at_utc := "2024-01-01T00:00:00Z"
    img_filename := none
    camera_id := "cam-bad" }

/-- C8: when the first matching row's blob cannot be parsed back,
`get_image_feature` surfaces a `DecodeError` to the caller rather than
panicking or returning a corrupt record; and `insert_image_feature` never
performs a partial write — its two encode steps are total, and it either
leaves the state unchanged (surfacing an error) or writes the complete
row. -/
theorem C8_decode_error_and_atomic_insert :
    (∀ (cam : String) (t : List FeatureRow) (d : Option (List ImageDescription))
        (r : FeatureRow),
      t.find? (fun r => r.camera_id == cam) = some r →
      deserializeKeypoints r.keypoints = none ∨ deserializeBytes r.descriptors = none →
      get_image_feature true cam ⟨some t, d⟩ = .error .decodeError) ∧
    (∀ (conn_ok : Bool) (f : ImageFeature) (s : DB),
      (insert_image_feature conn_ok f s).2 = s ∨
      ∃ t, s.image_features = some t ∧
        insert_image_feature conn_ok f s =
          (.ok (), { s with image_features := some (t ++ [encodeRow f]) })) := by
  constructor
  · intro cam t d r hfind hbad
    have hg : get_image_feature true cam ⟨some t, d⟩ = getFirst cam t := by
      simp [get_image_feature]
    rw [hg, getFirst_eq_find?, hfind]
    rcases hbad with hk | hd
    · simp [decodeRow, hk]
    · cases hk2 : deserializeKeypoints r.keypoints with
      | none => simp [decodeRow, hk2]
      | some ks => simp [decodeRow, hk2, hd]
  · intro conn_ok f s
    cases conn_ok with
    | false => exact Or.inl rfl
    | true =>
      cases hf : s.image_features with
      | none => exact Or.inl (by simp [insert_image_feature, hf])
      | some t =>
        cases ha : t.any (fun r => r.id == f.id) with
        | true => exact Or.inl (by simp [insert_image_feature, hf, ha])
        | false => exact Or.inr ⟨t, rfl, by simp [insert_image_feature, hf, ha]⟩

theorem C8_decode_error_and_atomic_insert_witness :
    get_image_feature true "cam-bad" ⟨some [corruptRow], some []⟩ = .error .decodeError ∧
    ((insert_image_feature true specFeature ⟨some [], some []⟩).2 = ⟨some [], some []⟩ ∨
      ∃ t, (⟨some [], some []⟩ : DB).image_features = some t ∧
        insert_image_feature true specFeature ⟨some [], some []⟩ =
          (.ok (), { (⟨some [], some []⟩ : DB) with
                      image_features := some (t ++ [encodeRow specFeature]) })) :=
  ⟨(C8_decode_error_and_atomic_insert).1 "cam-bad" [corruptRow] (some []) corruptRow
      (by decide) (Or.inl (by decide)),
   (C8_decode_error_and_atomic_insert).2 true specFeature ⟨some [], some []⟩⟩

/-- C9: `delete_image_feature` for one camera id keeps every row whose
`camera_id` differs, and never touches the `image_description` table. -/
theorem C9_delete_frame (cam : String) (t : List FeatureRow)
    (d : Option (List ImageDescription)) (r : FeatureRow)
    (hr : r ∈ t) (hne : r.camera_id ≠ cam) :
    ∃ t', (delete_image_feature true cam ⟨some t, d⟩).2.image_features = some t' ∧
      r ∈ t' ∧
      (delete_image_feature true cam ⟨some t, d⟩).2.image_description = d := by
  refine ⟨t.filter (fun r => !(r.camera_id == cam)), by simp [delete_image_feature],
    ?_, by simp [delete_image_feature]⟩
  exact List.mem_filter.mpr ⟨hr, by simpa using hne⟩

theorem C9_delete_frame_witness :
    ∃ t', (delete_image_feature true "camera_1"
        ⟨some [corruptRow], some []⟩).2.image_features = some t' ∧
      corruptRow ∈ t' ∧
      (delete_image_feature true "camera_1"
        ⟨some [corruptRow], some []⟩).2.image_description = some [] :=
  C9_delete_frame "camera_1" [corruptRow] (some []) corruptRow (by decide) (by decide)

/-- C10: in `reset_image_feature`, a failed delete short-circuits — the
insert is never attempted, the error is returned and the state is exactly
the pre-call state; after a successful delete the result is exactly that
of the insert on the deleted state, so a data-loss window exists only
between a successful delete and a failed insert. -/
theorem C10_reset_short_circuit (c₁ c₂ : Bool) (cam : String) (f : ImageFeature)
    (s : DB) :
    (∀ e s₁, delete_image_feature c₁ cam s = (.error e, s₁) →
      reset_image_feature c₁ c₂ cam f s = (.error e, s) ∧ s₁ = s) ∧
    (∀ s₂, delete_image_feature c₁ cam s = (.ok (), s₂) →
      reset_image_feature c₁ c₂ cam f s = insert_image_feature c₂ f s₂) := by
  constructor
  · intro e s₁ h
    have hs := delete_error_state c₁ cam s e s₁ h
    subst hs
    refine ⟨?_, rfl⟩
    unfold reset_image_feature
    rw [h]
  · intro s₂ h
    unfold reset_image_feature
    rw [h]

theorem C10_reset_short_circuit_witness :
    (reset_image_feature false true "camera_1" specFeature ⟨some [], some []⟩ =
      (.error .storageUnavailable, ⟨some [], some []⟩) ∧
      (⟨some [], some []⟩ : DB) = ⟨some [], some []⟩) ∧
    reset_image_feature true true "camera_1" specFeature ⟨some [], some []⟩ =
      insert_image_feature true specFeature ⟨some [], some []⟩ :=
  ⟨(C10_reset_short_circuit false true "camera_1" specFeature ⟨some [], some []⟩).1
      .storageUnavailable ⟨some [], some []⟩ rfl,
   (C10_reset_short_circuit true true "camera_1" specFeature ⟨some [], some []⟩).2
      ⟨some [], some []⟩ rfl⟩

end VyuweRust
